import Mathlib

/-!
Verification of the io_uring execution context of `exec` (stdexec).

The public header `include/exec/linux/io_uring_context.hpp` declares the data
model: `__task_vtable`, `__task`, `__submission_result`, `__submission_queue`,
`__completion_queue`, `__wakeup_operation`, `__context`, `__scheduler`, and the
`schedule_after_t` customization point.  The member-function bodies live in a
detail header that is not part of the sources at hand; where a claim depends on
them, the behaviour is modelled from the specification (sections 4.1 to 4.5)
and each such definition is marked `Modelled from the spec:`.

The development has two layers:

* a declaration-level model of the C++ record and member declarations,
  transcribed field by field from the header, over which shape claims
  (vtable layout, public surface, immovability) are decided; and
* an executable behavioural model: the submission-queue batch submit
  (section 4.1), the completion drain (section 4.2), and the event loop
  (section 4.5), over which the single-completion invariant is proved.
-/

/-! ### Declaration-level model of the C++ types in the header -/

/-- Shapes of the C++ types appearing in the declarations of
`io_uring_context.hpp`.  Function-pointer shapes carry their argument and
return types and whether they are `noexcept`. -/
inductive CppType where
  | void
  | boolT
  | unsignedT
  | u32T
  | u64T
  | intT
  | ptrdiffT
  | nanosecondsT
  | iovecT
  | named (n : String)
  | ptr (t : CppType)
  | ptrToConst (t : CppType)
  | refToConst (t : CppType)
  | funPtr1 (a1 ret : CppType) (noex : Bool)
  | funPtr2 (a1 a2 ret : CppType) (noex : Bool)
deriving DecidableEq

/-- A C++ data-member declaration: name, type, and whether the declaration
carries a default member initializer. -/
structure FieldDecl where
  fname : String
  ftype : CppType
  hasDefaultInit : Bool
deriving DecidableEq

/-- A C++ member-function declaration: name, argument types, number of
trailing arguments that have defaults, return type, constness, noexcept. -/
structure MemberDecl where
  mname : String
  margs : List CppType
  mdefaults : Nat
  mret : CppType
  misConst : Bool
  misNoexcept : Bool
deriving DecidableEq

/-- `struct __task_vtable` (header, lines 75-81): three function pointers. -/
def task_vtable_fields : List FieldDecl :=
  [⟨"__ready_", CppType.funPtr1 (CppType.ptr CppType.void) CppType.boolT true, false⟩,
   ⟨"__submit_",
     CppType.funPtr2 (CppType.ptr CppType.void) (CppType.ptr (CppType.named ("io_uring_sqe")))
       CppType.void true, false⟩,
   ⟨"__complete_",
     CppType.funPtr2 (CppType.ptr CppType.void)
       (CppType.ptrToConst (CppType.named ("io_uring_cqe"))) CppType.void true, false⟩]

/-- `struct __task` (header, lines 83-90): a vtable pointer and the intrusive
next-pointer, which is default-initialized to `nullptr`. -/
def task_fields : List FieldDecl :=
  [⟨"__vtable_", CppType.ptrToConst (CppType.named ("__task_vtable")), false⟩,
   ⟨"__next_", CppType.ptr (CppType.named ("__task")), true⟩]

/-- `struct __submission_result` (header, lines 92-96). -/
def submission_result_fields : List FieldDecl :=
  [⟨"__n_submitted_", CppType.u32T, false⟩,
   ⟨"__pending_", CppType.named ("__intrusive_queue"), false⟩,
   ⟨"__ready_", CppType.named ("__intrusive_queue"), false⟩]

/-- `class __scheduler` (header, lines 188-198): its only data member is the
pointer back to the context. -/
def scheduler_fields : List FieldDecl :=
  [⟨"__context_", CppType.ptr (CppType.named ("__context")), false⟩]

/-- The public member functions of `class __context` (header, lines 156-183),
transcribed in declaration order. -/
def context_public_members : List MemberDecl :=
  [⟨"run", [], 0, CppType.void, false, false⟩,
   ⟨"wakeup", [], 0, CppType.void, false, false⟩,
   ⟨"request_stop", [], 0, CppType.void, false, false⟩,
   ⟨"stop_requested", [], 0, CppType.boolT, false, false⟩,
   ⟨"get_stop_token", [], 0, CppType.named ("in_place_stop_token"), true, true⟩,
   ⟨"submit", [CppType.ptr (CppType.named ("__task"))], 0, CppType.void, false, true⟩,
   ⟨"get_scheduler", [], 0, CppType.named ("__scheduler"), false, true⟩]

/-- The constructor of `class __context` (header, line 158):
`explicit __context(unsigned __entries, unsigned __flags = 0)` — two unsigned
arguments, the last of which defaults to `0`. -/
def context_ctor : List CppType × Nat :=
  ([CppType.unsignedT, CppType.unsignedT], 1)

/-- A `tag_invoke` friend overload declared for `__scheduler`:
the tag type, the argument types after the tag, and the return type. -/
structure TagInvokeDecl where
  tag : String
  targs : List CppType
  tret : CppType
deriving DecidableEq

/-- The two `tag_invoke` friend declarations of `__scheduler`
(header, lines 192-197). -/
def scheduler_tag_invokes : List TagInvokeDecl :=
  [⟨"schedule_t", [CppType.refToConst (CppType.named ("__scheduler"))],
     CppType.named ("__schedule_sender")⟩,
   ⟨"schedule_after_t",
     [CppType.refToConst (CppType.named ("__scheduler")), CppType.nanosecondsT],
     CppType.named ("__schedule_after_sender")⟩]

/-! ### Class bases and immovability -/

/-- The class names of the header that matter for the inheritance claims. -/
inductive CName where
  | immovableC
  | context_baseC
  | taskC
  | contextC
  | schedulerC
  | wakeup_operationC
deriving DecidableEq

/-- A class declaration reduced to what immovability depends on: its direct
bases and whether it declares a deleted move constructor.  In C++, declaring a
move constructor deleted also causes the copy constructor to be defined as
deleted, and a derived class whose base subobject cannot be moved or copied
cannot itself be moved or copied. -/
structure ClassDecl where
  cname : CName
  bases : List CName
  declaresDeletedMoveCtor : Bool
deriving DecidableEq

/-- Modelled from the spec: `stdexec::__immovable` is declared in
`stdexec/execution.hpp`, which is not among the sources at hand; per the spec
tasks and the context are non-movable, realized by a base class whose move
constructor is deleted. -/
def immovableDecl : ClassDecl := ⟨CName.immovableC, [], true⟩

/-- The class table transcribed from the header: `__context_base` and `__task`
derive from `stdexec::__immovable` (lines 64, 83), `__context` derives from
`__context_base` (line 156), `__wakeup_operation` derives from `__task`
(line 130), `__scheduler` has no bases (line 188). -/
def classTable : List ClassDecl :=
  [immovableDecl,
   ⟨CName.context_baseC, [CName.immovableC], false⟩,
   ⟨CName.taskC, [CName.immovableC], false⟩,
   ⟨CName.contextC, [CName.context_baseC], false⟩,
   ⟨CName.schedulerC, [], false⟩,
   ⟨CName.wakeup_operationC, [CName.taskC], false⟩]

/-- Look a class up in the table. -/
def lookupClass (n : CName) : Option ClassDecl :=
  classTable.find? (fun c => c.cname == n)

/-- The ancestor list of a class (itself included), bounded by a fuel
argument; the table is acyclic, so `classTable.length` fuel is enough. -/
def ancestorsFuel : Nat → CName → List CName
  | 0, n => [n]
  | fuel + 1, n =>
    n :: (match lookupClass n with
          | some c => c.bases.flatMap (ancestorsFuel fuel)
          | none => [])

/-- All ancestors of a class, itself included. -/
def ancestors (n : CName) : List CName :=
  ancestorsFuel classTable.length n

/-- A class is immovable when it, or a transitive base, declares a deleted
move constructor: then its move and copy constructors are defined as
deleted. -/
def isImmovable (n : CName) : Bool :=
  (ancestors n).any fun b =>
    match lookupClass b with
    | some c => c.declaresDeletedMoveCtor
    | none => false

/-! ### The task object and its constructor -/

/-- The state of a `__task` object: the stored vtable pointer (modelled as the
address of the vtable) and the intrusive next-pointer (`none` models
`nullptr`). -/
structure TaskObj where
  vtableAddr : Nat
  next : Option Nat
deriving DecidableEq

/-- The constructor `__task::__task(const __task_vtable&)` (header, lines
87-89): it stores the address of the given vtable, and the default member
initializer `__task* __next_{nullptr}` (line 85) leaves the next-pointer
null. -/
def mkTask (vtable : Nat) : TaskObj :=
  ⟨vtable, none⟩

/-! ### The scheduler value -/

/-- The data of a `__scheduler` value (header, lines 188-198): a single
pointer to its context, modelled as the context's address. -/
structure SchedulerVal where
  contextAddr : Nat
deriving DecidableEq

/-- Modelled from the spec: the equality comparison of two scheduler values
(the spec requires "a scheduler value type supporting equality"; the
comparison body is not among the sources at hand).  Two schedulers are equal
exactly when they reference the same context. -/
def schedulerEq (a b : SchedulerVal) : Bool :=
  a.contextAddr == b.contextAddr

/-! ### The `schedule_after_t` customization point -/

/-- `schedule_after_t::operator()` (header, lines 52-59): pure dispatch with
no default.  The available `tag_invoke` overload for the given scheduler and
duration types is modelled as an `Option`: the call is possible exactly when
an overload exists, and then it returns exactly the overload's result. -/
def scheduleAfterDispatch {S D R : Type} (tagInvokeOverload : Option (S → D → R))
    (sched : S) (dur : D) : Option R :=
  tagInvokeOverload.map fun f => f sched dur

/-! ### The wakeup operation -/

/-- The io_uring opcodes the model needs. -/
inductive IoOpcode where
  | opRead
  | opReadv
  | opNop
  | opTimeout
deriving DecidableEq

/-- One `::iovec`: base address and length in bytes. -/
structure IovecM where
  base : Nat
  len : Nat
deriving DecidableEq

/-- A submission-queue entry as far as the wakeup operation fills it:
opcode, file descriptor, buffer address, length field, and `user_data`. -/
structure SqeM where
  opcode : IoOpcode
  fd : Nat
  addr : Nat
  len : Nat
  user_data : Nat
deriving DecidableEq

/-- The buffer member of `__wakeup_operation` (header, lines 133-138): with
`STDEXEC_HAS_IORING_OP_READ` (Linux at least 5.6) it is a single
`std::uint64_t __buffer_ = 0`; otherwise it is a one-element
`::iovec __buffer_` whose `iov_len` is `sizeof(std::uint64_t)`, i.e. 8. -/
inductive WakeupBuffer where
  | u64 (value : Nat)
  | iovs (vecs : List IovecM)
deriving DecidableEq

/-- The buffer `__wakeup_operation` declares, by kernel-feature variant
(header, lines 133-138). -/
def wakeupBuffer (hasOpRead : Bool) : WakeupBuffer :=
  if hasOpRead then WakeupBuffer.u64 0 else WakeupBuffer.iovs [⟨0, 8⟩]

/-- The size in bytes of the region a wakeup buffer covers: a
`std::uint64_t` is 8 bytes; an iovec list covers the sum of its lengths. -/
def bufferByteSize : WakeupBuffer → Nat
  | WakeupBuffer.u64 _ => 8
  | WakeupBuffer.iovs vs => (vs.map IovecM.len).sum

/-- Modelled from the spec: `__wakeup_operation::__ready_` (its body lives in
the detail header, not among the sources at hand); the spec states "Its
`ready` always returns false". -/
def wakeupReady (_self : Nat) : Bool :=
  false

/-- Modelled from the spec: `__wakeup_operation::__submit_` (its body lives in
the detail header).  Per the spec it issues a read of the eventfd into the
buffer, "preferring the dedicated read opcode when the kernel supports it,
otherwise a readv into a 1-element iovec".  For the read opcode, `len` is the
byte count 8; for readv, `len` is the iovec count 1. -/
def wakeupSubmit (hasOpRead : Bool) (eventfd self bufAddr : Nat) : SqeM :=
  if hasOpRead then
    ⟨IoOpcode.opRead, eventfd, bufAddr, 8, self⟩
  else
    ⟨IoOpcode.opReadv, eventfd, bufAddr, 1, self⟩

/-- How many bytes a read-like SQE asks the kernel to read: for the read
opcode, its `len` field; for readv, the summed lengths of the first `len`
iovecs of the buffer. -/
def sqeBytesToRead (s : SqeM) (buf : WakeupBuffer) : Nat :=
  match s.opcode, buf with
  | IoOpcode.opRead, _ => s.len
  | IoOpcode.opReadv, WakeupBuffer.iovs vs => ((vs.take s.len).map IovecM.len).sum
  | _, _ => 0

/-! ### The submission-queue batch submit (spec section 4.1)

Tasks are identified by their addresses, modelled as natural numbers. The
`ready` predicate of a task must be side-effect-free (spec section 4.3), so it
is modelled as a fixed boolean function of the task. -/

/-- The outcome of one batch submit: the count of SQEs published, the tasks
published into SQE slots in ring order, the remaining untried tasks, and the
short-circuited tasks. -/
structure SubmitRes where
  nSub : Nat
  sqes : List Nat
  pendingOut : List Nat
  readyOut : List Nat
deriving DecidableEq

/-- Modelled from the spec: the iteration core of
`__submission_queue::submit` (section 4.1; the body lives in the detail
header, not among the sources at hand).  With `free` slots available, iterate
the tasks while `free > 0`: a task whose `ready()` is true, or any task once
stop is requested, moves to the ready output without consuming a slot;
otherwise the task is published into the next SQE slot, consuming one slot.
When `free` reaches 0 the remaining tasks are returned untried. -/
def submitLoop (isReady : Nat → Bool) (stop : Bool) : List Nat → Nat → SubmitRes
  | [], _ => ⟨0, [], [], []⟩
  | t :: ts, 0 => ⟨0, [], t :: ts, []⟩
  | t :: ts, free + 1 =>
    if isReady t || stop then
      let r := submitLoop isReady stop ts (free + 1)
      ⟨r.nSub, r.sqes, r.pendingOut, t :: r.readyOut⟩
    else
      let r := submitLoop isReady stop ts free
      ⟨r.nSub + 1, t :: r.sqes, r.pendingOut, r.readyOut⟩

/-- The three-component record `__submission_result` returned by
`__submission_queue::submit` (header, lines 92-96). -/
structure SubmissionResult where
  n_submitted : Nat
  pending : List Nat
  ready : List Nat
deriving DecidableEq

/-- Modelled from the spec: `__submission_queue::submit` (section 4.1).
`free` is `capacity - (tail - head)`.  Returns the `__submission_result`
record together with the list of tasks published into the ring this call. -/
def submissionQueueSubmit (isReady : Nat → Bool) (free : Nat)
    (tasks : List Nat) (stop : Bool) : SubmissionResult × List Nat :=
  let r := submitLoop isReady stop tasks free
  (⟨r.nSub, r.pendingOut, r.readyOut⟩, r.sqes)

/-! ### The completion drain (spec section 4.2) and the event loop (4.5) -/

/-- Modelled from the spec: `__completion_queue::complete` (section 4.2).
First every ready task is completed with a null CQE (`false` marks a null
CQE), then the reaped kernel completions are delivered with their CQE
(`true`); the kernel-completion count is returned.  The completion log lists
`(task, cqe-non-null)` invocations in order. -/
def completionDrain (ready : List Nat) (reaped : List Nat) :
    List (Nat × Bool) × Nat :=
  (ready.map (fun t => (t, false)) ++ reaped.map (fun t => (t, true)), reaped.length)

/-- The input the environment feeds one round of the loop: tasks arriving
from remote submitters (pushed LIFO onto the request queue), whether stop was
requested during the round, and how many in-flight operations the kernel has
completed by the time the loop reaps. -/
structure RoundInput where
  arrivals : List Nat
  stopNow : Bool
  kReap : Nat
deriving DecidableEq

/-- The loop-visible state of the context: the local pending queue, the
atomic request queue (front = most recently pushed), the in-flight tasks
whose SQEs the kernel holds (in submission order), every task ever linked
into the context, the log of `complete` invocations, and the stop flag. -/
structure LoopState where
  pending : List Nat
  requests : List Nat
  inKernel : List Nat
  linked : List Nat
  completions : List (Nat × Bool)
  stop : Bool
deriving DecidableEq

/-- `n_submitted` of the context: SQE tail advances minus CQE count seen,
i.e. the number of in-flight operations. -/
def nSubmitted (s : LoopState) : Nat :=
  s.inKernel.length

/-- The termination condition of `run` (spec section 4.5): stop requested,
nothing in flight, and no pending or requested work. -/
def exitCond (s : LoopState) : Bool :=
  s.stop && s.inKernel.isEmpty && s.pending.isEmpty && s.requests.isEmpty

/-- Remote pushes onto the atomic request queue: each push is a
compare-and-swap of the head, so a batch of arrivals lands in LIFO order. -/
def pushAll (q : List Nat) (xs : List Nat) : List Nat :=
  xs.foldl (fun acc a => a :: acc) q

/-- Modelled from the spec: one round of the `run` loop (section 4.5).
Arrivals are pushed onto the request queue and recorded as linked; the loop
then (1) atomically takes the request queue, reverses it and splices it onto
pending, (2) batch-submits with the current stop flag, (3) enters the kernel
only if it published SQEs this round or has no local pending work, and
(4) completes ready tasks with a null CQE and reaped kernel completions with
their CQE. -/
def loopRound (isReady : Nat → Bool) (cap : Nat) (s : LoopState)
    (r : RoundInput) : LoopState :=
  let stop := s.stop || r.stopNow
  let requests := pushAll s.requests r.arrivals
  let linked := s.linked ++ r.arrivals
  let pending := s.pending ++ requests.reverse
  let free := cap - s.inKernel.length
  let sr := submitLoop isReady stop pending free
  let inKernel := s.inKernel ++ sr.sqes
  let k := if sr.nSub > 0 || sr.pendingOut.isEmpty
           then min r.kReap inKernel.length else 0
  { pending := sr.pendingOut
    requests := []
    inKernel := inKernel.drop k
    linked := linked
    completions := s.completions ++ (completionDrain sr.readyOut (inKernel.take k)).1
    stop := stop }

/-- Modelled from the spec: the `run` loop (section 4.5), driven by a finite
schedule of round inputs.  The termination condition is checked at the top of
every iteration; `some` is the state at which `run` returned, `none` means the
schedule ended with the loop still running. -/
def runLoop (isReady : Nat → Bool) (cap : Nat) :
    LoopState → List RoundInput → Option LoopState
  | s, [] => if exitCond s then some s else none
  | s, r :: rs =>
    if exitCond s then some s
    else runLoop isReady cap (loopRound isReady cap s r) rs

/-- The state of the context right after construction and initial
submissions: `p` holds the tasks submitted from the loop thread, `r` the
tasks pushed remotely (front = most recently pushed); nothing is in flight,
nothing has completed, stop has not been requested. -/
def initState (p r : List Nat) : LoopState :=
  { pending := p
    requests := r
    inKernel := []
    linked := p ++ r
    completions := []
    stop := false }

/-- The multiset of tasks of a queue, used to state conservation of tasks
across the loop. -/
def mset (l : List Nat) : Multiset Nat :=
  (l : Multiset Nat)

/-- Conservation of tasks: every task ever linked into the context is in
exactly one place — the pending queue, the request queue, in flight in the
kernel, or already completed.  Stated per task via occurrence counts. -/
def LoopInv (s : LoopState) : Prop :=
  ∀ t : Nat,
    s.linked.count t =
      s.pending.count t + s.requests.count t + s.inKernel.count t
        + (s.completions.map Prod.fst).count t

/-! ### Helper lemmas -/

theorem mset_nil : mset [] = 0 :=
  rfl

theorem mset_append (a b : List Nat) : mset (a ++ b) = mset a + mset b :=
  (Multiset.coe_add a b).symm

theorem mset_cons (a : Nat) (l : List Nat) : mset (a :: l) = {a} + mset l := by
  rw [mset, ← Multiset.cons_coe, ← Multiset.singleton_add]
  rfl

theorem mset_reverse (l : List Nat) : mset l.reverse = mset l :=
  Multiset.coe_reverse l

theorem mset_take_drop (k : Nat) (l : List Nat) :
    mset (l.take k) + mset (l.drop k) = mset l := by
  rw [← mset_append, List.take_append_drop]

theorem pushAll_eq (xs : List Nat) : ∀ q, pushAll q xs = xs.reverse ++ q := by
  induction xs with
  | nil => intro q; rfl
  | cons a xs ih =>
    intro q
    show pushAll (a :: q) xs = (a :: xs).reverse ++ q
    rw [ih (a :: q)]
    simp

theorem submitLoop_cons_ready (isReady : Nat → Bool) (stop : Bool) (t : Nat)
    (ts : List Nat) (free : Nat) (h : (isReady t || stop) = true) :
    submitLoop isReady stop (t :: ts) (free + 1) =
      ⟨(submitLoop isReady stop ts (free + 1)).nSub,
       (submitLoop isReady stop ts (free + 1)).sqes,
       (submitLoop isReady stop ts (free + 1)).pendingOut,
       t :: (submitLoop isReady stop ts (free + 1)).readyOut⟩ := by
  simp [submitLoop, h]

theorem submitLoop_cons_go (isReady : Nat → Bool) (stop : Bool) (t : Nat)
    (ts : List Nat) (free : Nat) (h : (isReady t || stop) = false) :
    submitLoop isReady stop (t :: ts) (free + 1) =
      ⟨(submitLoop isReady stop ts free).nSub + 1,
       t :: (submitLoop isReady stop ts free).sqes,
       (submitLoop isReady stop ts free).pendingOut,
       (submitLoop isReady stop ts free).readyOut⟩ := by
  simp [submitLoop, h]

theorem submitLoop_spec (isReady : Nat → Bool) (stop : Bool) :
    ∀ (ts : List Nat) (free : Nat),
      (submitLoop isReady stop ts free).nSub
          = (submitLoop isReady stop ts free).sqes.length
        ∧ mset (submitLoop isReady stop ts free).sqes
            + mset (submitLoop isReady stop ts free).readyOut
            + mset (submitLoop isReady stop ts free).pendingOut = mset ts
        ∧ (submitLoop isReady stop ts free).pendingOut <:+ ts
        ∧ (submitLoop isReady stop ts free).readyOut.all
            (fun t => isReady t || stop) = true
        ∧ (submitLoop isReady stop ts free).sqes.all
            (fun t => !(isReady t || stop)) = true := by
  intro ts
  induction ts with
  | nil =>
    intro free
    refine ⟨rfl, ?_, List.nil_suffix, rfl, rfl⟩
    simp [submitLoop, mset_nil]
  | cons t ts ih =>
    intro free
    match free with
    | 0 =>
      refine ⟨rfl, ?_, List.suffix_refl _, rfl, rfl⟩
      simp [submitLoop, mset_nil]
    | free + 1 =>
      by_cases h : (isReady t || stop) = true
      · have ihf := ih (free + 1)
        rw [submitLoop_cons_ready isReady stop t ts free h]
        refine ⟨ihf.1, ?_, ihf.2.2.1.trans (List.suffix_cons t ts), ?_, ihf.2.2.2.2⟩
        · show mset (submitLoop isReady stop ts (free + 1)).sqes
              + mset (t :: (submitLoop isReady stop ts (free + 1)).readyOut)
              + mset (submitLoop isReady stop ts (free + 1)).pendingOut
              = mset (t :: ts)
          rw [mset_cons t (submitLoop isReady stop ts (free + 1)).readyOut,
            mset_cons t ts, ← ihf.2.1]
          abel
        · show (t :: (submitLoop isReady stop ts (free + 1)).readyOut).all
              (fun t => isReady t || stop) = true
          simp only [List.all_cons, h, Bool.true_and]
          exact ihf.2.2.2.1
      · have hb : (isReady t || stop) = false := by
          revert h; cases isReady t || stop <;> simp
        have ihf := ih free
        rw [submitLoop_cons_go isReady stop t ts free hb]
        refine ⟨?_, ?_, ihf.2.2.1.trans (List.suffix_cons t ts), ihf.2.2.2.1, ?_⟩
        · show (submitLoop isReady stop ts free).nSub + 1
            = (t :: (submitLoop isReady stop ts free).sqes).length
          simp [ihf.1]
        · show mset (t :: (submitLoop isReady stop ts free).sqes)
              + mset (submitLoop isReady stop ts free).readyOut
              + mset (submitLoop isReady stop ts free).pendingOut
              = mset (t :: ts)
          rw [mset_cons t (submitLoop isReady stop ts free).sqes,
            mset_cons t ts, ← ihf.2.1]
          abel
        · show (t :: (submitLoop isReady stop ts free).sqes).all
              (fun t => !(isReady t || stop)) = true
          simp only [List.all_cons, hb, Bool.not_false, Bool.true_and]
          exact ihf.2.2.2.2

theorem count_take_drop (k : Nat) (l : List Nat) (t : Nat) :
    (l.take k).count t + (l.drop k).count t = l.count t := by
  rw [← List.count_append, List.take_append_drop]

theorem submitLoop_count (isReady : Nat → Bool) (stop : Bool)
    (ts : List Nat) (free : Nat) (t : Nat) :
    (submitLoop isReady stop ts free).sqes.count t
      + (submitLoop isReady stop ts free).readyOut.count t
      + (submitLoop isReady stop ts free).pendingOut.count t
      = ts.count t := by
  have h := congrArg (Multiset.count t) (submitLoop_spec isReady stop ts free).2.1
  simp only [mset, Multiset.count_add, Multiset.coe_count] at h
  omega

theorem loopRound_eq (isReady : Nat → Bool) (cap : Nat) (s : LoopState)
    (r : RoundInput) :
    loopRound isReady cap s r =
      { pending := (submitLoop isReady (s.stop || r.stopNow)
          (s.pending ++ (pushAll s.requests r.arrivals).reverse)
          (cap - s.inKernel.length)).pendingOut
        requests := []
        inKernel := (s.inKernel ++ (submitLoop isReady (s.stop || r.stopNow)
          (s.pending ++ (pushAll s.requests r.arrivals).reverse)
          (cap - s.inKernel.length)).sqes).drop
            (if (submitLoop isReady (s.stop || r.stopNow)
                  (s.pending ++ (pushAll s.requests r.arrivals).reverse)
                  (cap - s.inKernel.length)).nSub > 0
                || (submitLoop isReady (s.stop || r.stopNow)
                  (s.pending ++ (pushAll s.requests r.arrivals).reverse)
                  (cap - s.inKernel.length)).pendingOut.isEmpty
             then min r.kReap (s.inKernel ++ (submitLoop isReady (s.stop || r.stopNow)
                  (s.pending ++ (pushAll s.requests r.arrivals).reverse)
                  (cap - s.inKernel.length)).sqes).length
             else 0)
        linked := s.linked ++ r.arrivals
        completions := s.completions ++
          ((submitLoop isReady (s.stop || r.stopNow)
              (s.pending ++ (pushAll s.requests r.arrivals).reverse)
              (cap - s.inKernel.length)).readyOut.map (fun t => (t, false))
            ++ ((s.inKernel ++ (submitLoop isReady (s.stop || r.stopNow)
                  (s.pending ++ (pushAll s.requests r.arrivals).reverse)
                  (cap - s.inKernel.length)).sqes).take
                (if (submitLoop isReady (s.stop || r.stopNow)
                      (s.pending ++ (pushAll s.requests r.arrivals).reverse)
                      (cap - s.inKernel.length)).nSub > 0
                    || (submitLoop isReady (s.stop || r.stopNow)
                      (s.pending ++ (pushAll s.requests r.arrivals).reverse)
                      (cap - s.inKernel.length)).pendingOut.isEmpty
                 then min r.kReap (s.inKernel ++ (submitLoop isReady (s.stop || r.stopNow)
                      (s.pending ++ (pushAll s.requests r.arrivals).reverse)
                      (cap - s.inKernel.length)).sqes).length
                 else 0)).map (fun t => (t, true)))
        stop := s.stop || r.stopNow } :=
  rfl

theorem loopRound_inv (isReady : Nat → Bool) (cap : Nat) (s : LoopState)
    (r : RoundInput) (h : LoopInv s) : LoopInv (loopRound isReady cap s r) := by
  intro t
  rw [loopRound_eq]
  set sr := submitLoop isReady (s.stop || r.stopNow)
    (s.pending ++ (pushAll s.requests r.arrivals).reverse)
    (cap - s.inKernel.length) with hsr
  set k := (if sr.nSub > 0 || sr.pendingOut.isEmpty
            then min r.kReap (s.inKernel ++ sr.sqes).length else 0) with hk
  have hsub := submitLoop_count isReady (s.stop || r.stopNow)
    (s.pending ++ (pushAll s.requests r.arrivals).reverse)
    (cap - s.inKernel.length) t
  rw [← hsr] at hsub
  rw [pushAll_eq] at hsub
  have htd := count_take_drop k (s.inKernel ++ sr.sqes) t
  have hh := h t
  simp only [List.count_append, List.count_reverse] at hsub htd
  simp only [List.count_append, List.count_reverse, List.map_append,
    List.map_map, List.count_nil, pushAll_eq]
  have hfst1 : (Prod.fst ∘ fun t => (t, false)) = fun t : Nat => t := rfl
  have hfst2 : (Prod.fst ∘ fun t => (t, true)) = fun t : Nat => t := rfl
  rw [hfst1, hfst2]
  simp only [List.map_id_fun', id_eq]
  omega

theorem loopRound_linked (isReady : Nat → Bool) (cap : Nat) (s : LoopState)
    (r : RoundInput) :
    (loopRound isReady cap s r).linked = s.linked ++ r.arrivals :=
  rfl

theorem exitCond_spec (s : LoopState) (h : exitCond s = true) :
    s.pending = [] ∧ s.requests = [] ∧ s.inKernel = [] ∧ s.stop = true := by
  simp only [exitCond, Bool.and_eq_true, List.isEmpty_iff] at h
  exact ⟨h.1.2, h.2, h.1.1.2, h.1.1.1⟩

theorem runLoop_some (isReady : Nat → Bool) (cap : Nat) :
    ∀ (rs : List RoundInput) (s f : LoopState),
      runLoop isReady cap s rs = some f →
      (LoopInv s → LoopInv f) ∧ exitCond f = true ∧
        ∃ l, f.linked = s.linked ++ l
          ∧ l.Sublist (rs.flatMap RoundInput.arrivals) := by
  intro rs
  induction rs with
  | nil =>
    intro s f hrun
    simp only [runLoop] at hrun
    split at hrun
    next hex =>
      cases hrun
      exact ⟨fun h => h, hex, [], by simp, List.nil_sublist _⟩
    next hex => cases hrun
  | cons r rs ih =>
    intro s f hrun
    simp only [runLoop] at hrun
    split at hrun
    next hex =>
      cases hrun
      exact ⟨fun h => h, hex, [], by simp, List.nil_sublist _⟩
    next hex =>
      obtain ⟨hi, hx, l, hl, hsub⟩ := ih (loopRound isReady cap s r) f hrun
      refine ⟨fun h => hi (loopRound_inv isReady cap s r h), hx,
        r.arrivals ++ l, ?_, ?_⟩
      · rw [hl, loopRound_linked, List.append_assoc]
      · rw [List.flatMap_cons]
        exact List.Sublist.append (List.Sublist.refl _) hsub

/-! ### The claims -/

/-- C1: single completion.  For every task ever linked into the context —
through the initial pending queue, the initial request queue, or a remote
arrival in any round — if `run` terminates, the task's `complete` callback was
invoked exactly once over the whole lifetime, counting both kernel deliveries
(non-null CQE) and stop short-circuits (null CQE). -/
theorem single_completion (isReady : Nat → Bool) (cap : Nat)
    (p r : List Nat) (rs : List RoundInput) (f : LoopState) (t : Nat)
    (hnodup : ((p ++ r) ++ rs.flatMap RoundInput.arrivals).Nodup)
    (hrun : runLoop isReady cap (initState p r) rs = some f)
    (ht : t ∈ f.linked) :
    (f.completions.map Prod.fst).count t = 1 := by
  obtain ⟨hi, hx, l, hl, hsub⟩ := runLoop_some isReady cap rs (initState p r) f hrun
  have h0 : LoopInv (initState p r) := by
    intro u
    simp [initState, LoopInv, List.count_append]
  have hf := hi h0
  obtain ⟨h1, h2, h3, _⟩ := exitCond_spec f hx
  have hlini : (initState p r).linked = p ++ r := rfl
  have hln : f.linked.Nodup := by
    rw [hl, hlini]
    exact hnodup.sublist (List.Sublist.append (List.Sublist.refl _) hsub)
  have hc := hf t
  rw [h1, h2, h3] at hc
  simp only [List.count_nil] at hc
  have hone : f.linked.count t = 1 := List.count_eq_one_of_mem hln ht
  omega

/-- Witness for C1: two tasks submitted from the loop thread and one pushed
remotely; stop is requested in the first round, so all three short-circuit
with a null CQE and the loop exits; task 1 is completed exactly once. -/
theorem single_completion_witness :
    ((LoopState.completions
        ⟨[], [], [], [1, 2, 3], [(1, false), (2, false), (3, false)], true⟩).map
      Prod.fst).count 1 = 1 :=
  single_completion (fun _ => false) 4 [1, 2] [3] [⟨[], true, 0⟩]
    ⟨[], [], [], [1, 2, 3], [(1, false), (2, false), (3, false)], true⟩ 1
    (by decide) (by decide) (by decide)

/-- C2: a task is an abstract record of exactly (a) a vtable of three
function pointers with shapes ready(self) -> bool, submit(self, sqe_slot) and
complete(self, cqe), and (b) one intrusive next-pointer; and task objects are
neither movable nor copyable once constructed (they derive from
stdexec::__immovable). -/
theorem task_record_shape :
    task_vtable_fields.map FieldDecl.ftype =
      [CppType.funPtr1 (CppType.ptr CppType.void) CppType.boolT true,
       CppType.funPtr2 (CppType.ptr CppType.void)
         (CppType.ptr (CppType.named ("io_uring_sqe"))) CppType.void true,
       CppType.funPtr2 (CppType.ptr CppType.void)
         (CppType.ptrToConst (CppType.named ("io_uring_cqe"))) CppType.void true]
    ∧ task_vtable_fields.length = 3
    ∧ task_fields.map FieldDecl.ftype =
      [CppType.ptrToConst (CppType.named ("__task_vtable")),
       CppType.ptr (CppType.named ("__task"))]
    ∧ isImmovable CName.taskC = true :=
  ⟨rfl, rfl, rfl, rfl⟩

/-- C3: the wakeup operation reads exactly 8 bytes from the eventfd into a
buffer it owns — with the dedicated read opcode (Linux at least 5.6) the
buffer is a single 64-bit integer, otherwise a 1-element iovec of length 8
used with readv — and its ready predicate returns false for every call. -/
theorem wakeup_reads_eight_bytes :
    (∀ b : Bool, bufferByteSize (wakeupBuffer b) = 8)
    ∧ wakeupBuffer true = WakeupBuffer.u64 0
    ∧ wakeupBuffer false = WakeupBuffer.iovs [⟨0, 8⟩]
    ∧ (∀ efd self addr : Nat,
        (wakeupSubmit true efd self addr).opcode = IoOpcode.opRead
        ∧ (wakeupSubmit true efd self addr).len = 8
        ∧ (wakeupSubmit false efd self addr).opcode = IoOpcode.opReadv
        ∧ (wakeupSubmit false efd self addr).len = 1
        ∧ (∀ b : Bool,
            sqeBytesToRead (wakeupSubmit b efd self addr) (wakeupBuffer b) = 8))
    ∧ (∀ self : Nat, wakeupReady self = false) :=
  ⟨fun b => by cases b <;> rfl, rfl, rfl,
   fun _ _ _ => ⟨rfl, rfl, rfl, rfl, fun b => by cases b <;> rfl⟩,
   fun _ => rfl⟩

/-- C4: for every input queue of tasks and stop flag, the submission queue's
submit returns a record of exactly three components: n_submitted counts the
tasks published as SQEs this call, pending is the untried suffix of the input
(the tasks that did not fit in the ring), and ready holds the tasks
short-circuited past the kernel (task ready or stop requested); the three
outputs partition the input. -/
theorem submission_queue_submit_result (isReady : Nat → Bool) (free : Nat)
    (ts : List Nat) (stop : Bool) :
    (submissionQueueSubmit isReady free ts stop).1.n_submitted
        = (submissionQueueSubmit isReady free ts stop).2.length
      ∧ mset (submissionQueueSubmit isReady free ts stop).2
          + mset (submissionQueueSubmit isReady free ts stop).1.ready
          + mset (submissionQueueSubmit isReady free ts stop).1.pending = mset ts
      ∧ (submissionQueueSubmit isReady free ts stop).1.pending <:+ ts
      ∧ (submissionQueueSubmit isReady free ts stop).1.ready.all
          (fun t => isReady t || stop) = true
      ∧ (submissionQueueSubmit isReady free ts stop).2.all
          (fun t => !(isReady t || stop)) = true
      ∧ submission_result_fields.length = 3 :=
  ⟨(submitLoop_spec isReady stop ts free).1,
   (submitLoop_spec isReady stop ts free).2.1,
   (submitLoop_spec isReady stop ts free).2.2.1,
   (submitLoop_spec isReady stop ts free).2.2.2.1,
   (submitLoop_spec isReady stop ts free).2.2.2.2,
   rfl⟩

/-- C5: the scheduler is a lightweight value whose only state is the pointer
back to its context, and two scheduler values compare equal exactly when they
reference the same context. -/
theorem scheduler_state_and_equality :
    scheduler_fields.length = 1
    ∧ scheduler_fields.map FieldDecl.ftype
        = [CppType.ptr (CppType.named ("__context"))]
    ∧ (∀ a b : SchedulerVal, schedulerEq a b = true ↔ a.contextAddr = b.contextAddr)
    ∧ (∀ a b : SchedulerVal, schedulerEq a b = true ↔ a = b) := by
  refine ⟨rfl, rfl, fun a b => ?_, fun a b => ?_⟩
  · simp [schedulerEq]
  · cases a
    cases b
    simp [schedulerEq]

/-- C6: the schedule_after customization on the scheduler accepts exactly a
std::chrono::nanoseconds duration and returns the delayed-schedule sender
type; it is the only schedule_after overload, so no other duration
granularity is part of the customization's signature. -/
theorem schedule_after_signature :
    scheduler_tag_invokes.filter (fun d => d.tag == "schedule_after_t")
      = [⟨"schedule_after_t",
          [CppType.refToConst (CppType.named ("__scheduler")), CppType.nanosecondsT],
          CppType.named ("__schedule_after_sender")⟩]
    ∧ (scheduler_tag_invokes.filter
        (fun d => d.tag == "schedule_after_t")).length = 1 :=
  ⟨rfl, rfl⟩

/-- C7: the context's public lifecycle surface: construction from an entries
count with a flags argument defaulting to 0, and member operations run(),
wakeup(), request_stop(), stop_requested() -> bool, plus get_stop_token(),
submit(task) and get_scheduler(). -/
theorem context_lifecycle_surface :
    context_ctor = ([CppType.unsignedT, CppType.unsignedT], 1)
    ∧ context_public_members.map MemberDecl.mname
        = ["run", "wakeup", "request_stop", "stop_requested",
           "get_stop_token", "submit", "get_scheduler"]
    ∧ context_public_members.find? (fun m => m.mname == "run")
        = some ⟨"run", [], 0, CppType.void, false, false⟩
    ∧ context_public_members.find? (fun m => m.mname == "wakeup")
        = some ⟨"wakeup", [], 0, CppType.void, false, false⟩
    ∧ context_public_members.find? (fun m => m.mname == "request_stop")
        = some ⟨"request_stop", [], 0, CppType.void, false, false⟩
    ∧ context_public_members.find? (fun m => m.mname == "stop_requested")
        = some ⟨"stop_requested", [], 0, CppType.boolT, false, false⟩
    ∧ context_public_members.find? (fun m => m.mname == "submit")
        = some ⟨"submit", [CppType.ptr (CppType.named ("__task"))], 0,
            CppType.void, false, true⟩ :=
  ⟨rfl, rfl, rfl, rfl, rfl, rfl, rfl⟩

/-- C8: every freshly constructed task is unlinked — the constructor taking a
vtable reference stores exactly the address of the given vtable, and the
default member initializer leaves the intrusive next-pointer null. -/
theorem task_ctor_unlinked :
    (∀ vt : Nat, (mkTask vt).next = none ∧ (mkTask vt).vtableAddr = vt)
    ∧ task_fields.map FieldDecl.hasDefaultInit = [false, true] :=
  ⟨fun _ => ⟨rfl, rfl⟩, rfl⟩

/-- C9: schedule_after_t's call operator is pure dispatch with no default —
it is invocable exactly when a tag_invoke overload for the scheduler and
duration types exists, and when invocable it returns exactly the result of
that tag_invoke call. -/
theorem schedule_after_dispatch_exact {S D R : Type} :
    (∀ (f : S → D → R) (s : S) (d : D),
        scheduleAfterDispatch (some f) s d = some (f s d))
    ∧ (∀ (s : S) (d : D),
        scheduleAfterDispatch (none : Option (S → D → R)) s d = none)
    ∧ (∀ (ov : Option (S → D → R)) (s : S) (d : D),
        (scheduleAfterDispatch ov s d).isSome = ov.isSome) :=
  ⟨fun _ _ _ => rfl, fun _ _ => rfl, fun ov _ _ => by cases ov <;> rfl⟩

/-- C10: the context object is immovable — __context inherits __context_base,
which derives from stdexec::__immovable, whose deleted move constructor makes
every derived class neither movable nor copyable, so a constructed context
can never be relocated (the scheduler, by contrast, carries no such base). -/
theorem context_immovable :
    isImmovable CName.contextC = true
    ∧ (lookupClass CName.contextC).map ClassDecl.bases
        = some [CName.context_baseC]
    ∧ (lookupClass CName.context_baseC).map ClassDecl.bases
        = some [CName.immovableC]
    ∧ immovableDecl.declaresDeletedMoveCtor = true
    ∧ isImmovable CName.schedulerC = false :=
  ⟨rfl, rfl, rfl, rfl, rfl⟩
